import Mathlib

/-!
Verification of the CHUCK chat-harvesting core against its design document.

The definitions below are a shallow embedding of the JavaScript sources:
strings are modelled as `List Char`, JavaScript numbers that can be `NaN`
as `Option ℚ` (with `none` for `NaN`), nullable values as `Option`, and
code that can throw as `Except`.  Each definition carries a comment naming
the source function it embeds.
-/

set_option maxRecDepth 4000

namespace Chuck

/-! ## JavaScript string/number primitives used by the adapters -/

/-- JS `String.prototype.split(c)` on a single-character separator:
splitting the empty string yields one empty piece, a separator at either
end yields empty pieces, matching JS semantics. -/
def splitCh (sep : Char) : List Char → List (List Char)
  | [] => [[]]
  | c :: rest =>
    if c = sep then
      [] :: splitCh sep rest
    else
      match splitCh sep rest with
      | [] => [[c]]
      | p :: ps => (c :: p) :: ps

/-- JS `String.prototype.indexOf(c)` for a single character; `none` models `-1`. -/
def idxOfChar (c : Char) : List Char → Option Nat
  | [] => none
  | x :: rest =>
    if x = c then some 0
    else (idxOfChar c rest).map (· + 1)

/-- JS `String.prototype.indexOf(needle)` for a multi-character needle;
`none` models `-1`.  Returns the first index at which `needle` occurs. -/
def findSub (needle : List Char) : List Char → Option Nat
  | [] => if needle = [] then some 0 else none
  | x :: rest =>
    if needle.isPrefixOf (x :: rest) then some 0
    else (findSub needle rest).map (· + 1)

/-- JS `String.prototype.replace(/ab/g, rep)` for a literal two-character
pattern: one left-to-right scan replacing non-overlapping occurrences
(all five IRC tag escape patterns are two characters long). -/
def replace2 (a b : Char) (rep : List Char) : List Char → List Char
  | [] => []
  | [c] => [c]
  | c :: d :: rest =>
    if c = a ∧ d = b then rep ++ replace2 a b rep rest
    else c :: replace2 a b rep (d :: rest)

/-- ASCII decimal digit test (JS regex `\d`). -/
def isDigitCh (c : Char) : Bool :=
  '0' ≤ c ∧ c ≤ '9'

/-- Numeric value of a list of ASCII digits, most significant first. -/
def digitsToNat (ds : List Char) : Nat :=
  ds.foldl (fun acc c => acc * 10 + (c.toNat - '0'.toNat)) 0

/-- JS `parseInt(s, 10)`: skip leading spaces, optional sign, then a maximal
run of ASCII digits; no digits means `NaN`, modelled as `none`. -/
def jsParseInt (s : List Char) : Option Int :=
  let sTrim := s.dropWhile (fun c => c = ' ' ∨ c = '\t' ∨ c = '\n' ∨ c = '\r')
  let (neg, body) :=
    match sTrim with
    | '-' :: rest => (true, rest)
    | '+' :: rest => (false, rest)
    | rest => (false, rest)
  let ds := body.takeWhile isDigitCh
  if ds = [] then none
  else
    let v : Int := Int.ofNat (digitsToNat ds)
    some (if neg then -v else v)

/-! ## Identity Generator

`uuidv5` lives in `src/core` which is not part of the reviewed sources. -/

/-- Modelled from the spec: the Identity Generator `identity(namespace,
nativeId)` (the `uuidv5` helper exported by `src/core/index.js`, whose
implementation file is not under `src/`).  Per design §4.1 it is a
deterministic, pure, namespace-salted name hash; the real implementation
is RFC-4122 UUID version 5, whose output is always a 36-character
hyphenated lowercase hex string.  We model it as a deterministic
128-bit polynomial hash of the namespace and native id rendered in that
36-character UUID format. -/
def identity (ns nativeId : String) : String :=
  let mix : List Char := ns.data ++ '\x00' :: nativeId.data
  let h : Nat := (mix.foldl (fun acc c => acc * 16777619 + c.toNat) 2166136261) % (2 ^ 128)
  let hexDigit (n : Nat) : Char :=
    if n < 10 then Char.ofNat ('0'.toNat + n) else Char.ofNat ('a'.toNat + (n - 10))
  let hex : List Char := (List.range 32).reverse.map (fun i => hexDigit ((h / 16 ^ i) % 16))
  String.mk (hex.take 8 ++ '-' :: (hex.drop 8).take 4 ++ '-' :: (hex.drop 12).take 4 ++
    '-' :: (hex.drop 16).take 4 ++ '-' :: hex.drop 20)

/-! ## Canonical message model

`src/core/message.js` is not part of the reviewed sources. -/

/-- A JavaScript number that may be `NaN`: `none` models `NaN`. -/
abbrev JsNum := Option ℚ

/-- Modelled from the spec: `ChatMessage` (`src/core/message.js`, not under
`src/`), the CanonicalMessage of design §3.  The constructor takes
`(id, platform, channel)` and stores `id` unchanged (the Twitch adapter
tests pin `message.id` to the raw constructor argument); all optional
fields default to absent, booleans to `false`, the body to the empty
string and the emoji list to empty.  `amount` is `none` when never set
and `some n` when assigned the JS number `n` (itself possibly `NaN`). -/
structure ChatMessage where
  id : String
  platform : String
  channel : String
  username : String := ""
  avatar : Option String := none
  message : String := ""
  sent_at : Option Int := none
  amount : Option JsNum := none
  currency : Option String := none
  is_verified : Bool := false
  is_sub : Bool := false
  is_mod : Bool := false
  is_owner : Bool := false
  is_placeholder : Bool := false
  emojis : List (String × String × String) := []
  extra : List (String × Option String) := []
deriving Repr, DecidableEq

end Chuck

namespace Twitch

open Chuck

/-- The static `Twitch.namespace` (src/unnamed/part_005 line 13). -/
def twitchNamespace : String := "4a342b79-e302-403a-99be-669b5f27b152"

/-- The `Twitch.parseIrcTags` value unescaping (src/unnamed/part_005 lines
44-50): five sequential global replaces, in source order
`\s`→space, `\n`→newline, `\r`→carriage return, `\:`→`;`, `\\`→`\`. -/
def unescapeTagValue (v : List Char) : List Char :=
  replace2 '\\' '\\' ['\\']
    (replace2 '\\' ':' [';']
      (replace2 '\\' 'r' ['\r']
        (replace2 '\\' 'n' ['\n']
          (replace2 '\\' 's' [' '] v))))

/-- JS object property assignment `tags[key] = value`: a later assignment
to an existing key overwrites the stored value in place. -/
def tagsAssign (m : List (List Char × List Char)) (k v : List Char) :
    List (List Char × List Char) :=
  if m.any (fun p => p.1 = k) then
    m.map (fun p => if p.1 = k then (k, v) else p)
  else
    m ++ [(k, v)]

/-- Lookup in the tag map built by `tagsAssign` (JS property read). -/
def tagsGet (m : List (List Char × List Char)) (k : List Char) : Option (List Char) :=
  (m.find? (fun p => p.1 = k)).map Prod.snd

/-- Embedding of `Twitch.parseIrcTags` (src/unnamed/part_005 lines 32-54): split the
tag block on `;`; a pair without `=` maps the whole pair to the empty
value; otherwise the key is the text before the first `=` and the value
is the unescaped remainder. -/
def parseIrcTags (tagsStr : List Char) : List (List Char × List Char) :=
  if tagsStr = [] then []
  else
    (splitCh ';' tagsStr).foldl
      (fun tags pair =>
        match idxOfChar '=' pair with
        | none => tagsAssign tags pair []
        | some eqIdx =>
          tagsAssign tags (pair.take eqIdx) (unescapeTagValue (pair.drop (eqIdx + 1))))
      []

/-- The result record of `Twitch.parseIrcMessageToJson` (src/unnamed/part_005
lines 63-70).  The source also aliases `meta` to `tags` (line 83); the
alias carries no extra information and is not modelled separately. -/
structure ParsedIrc where
  raw : List Char
  tags : List (List Char × List Char) := []
  pfx : Option (List Char) := none
  command : Option (List Char) := none
  params : List (List Char) := []
  trailing : Option (List Char) := none
deriving Repr, DecidableEq

/-- Embedding of `Twitch.parseIrcMessageToJson` (src/unnamed/part_005 lines 62-111):
optional `@tags` block up to the first space, optional `:prefix` block up
to the next space, then the remainder splits at the first `" :"` into
command-and-params and trailing; command and params come from splitting
on spaces and dropping empty pieces.  An unterminated tag or prefix block
returns the partially filled record, exactly as the early returns do. -/
def parseIrcMessageToJson (message : List Char) : ParsedIrc :=
  let base : ParsedIrc := { raw := message }
  -- tags block
  let afterTags : Option (List (List Char × List Char) × List Char) :=
    if message.head? = some '@' then
      match idxOfChar ' ' message with
      | none => none
      | some spaceIdx =>
        some (parseIrcTags ((message.take spaceIdx).drop 1), message.drop (spaceIdx + 1))
    else
      some ([], message)
  match afterTags with
  | none => base
  | some (tags, rem1) =>
    -- prefix block
    let afterPfx : Option (Option (List Char) × List Char) :=
      if rem1.head? = some ':' then
        match idxOfChar ' ' rem1 with
        | none => none
        | some spaceIdx =>
          some (some ((rem1.take spaceIdx).drop 1), rem1.drop (spaceIdx + 1))
      else
        some (none, rem1)
    match afterPfx with
    | none => { base with tags := tags }
    | some (pfx, rem2) =>
      -- trailing
      let (commandAndParams, trailing) :=
        match findSub [' ', ':'] rem2 with
        | some trailingIdx => (rem2.take trailingIdx, some (rem2.drop (trailingIdx + 2)))
        | none => (rem2, none)
      let parts := (splitCh ' ' commandAndParams).filter (· ≠ [])
      match parts with
      | [] => { base with tags := tags, pfx := pfx, trailing := trailing }
      | cmd :: rest =>
        { base with
          tags := tags
          pfx := pfx
          trailing := trailing
          command := some cmd
          params := rest }

/-- Embedding of `Twitch.extractUsername` (src/unnamed/part_005 lines 119-124). -/
def extractUsername (pfx : Option (List Char)) : Option (List Char) :=
  match pfx with
  | none => none
  | some p =>
    if p = [] then none
    else
      match idxOfChar '!' p with
      | none => some p
      | some bangIdx => some (p.take bangIdx)

/-- Embedding of `Twitch.hasBadge` (src/unnamed/part_005 lines 133-136): a falsy badge
string (`null` or empty) yields `false`; otherwise split on commas and
test whether some entry starts with the queried type followed by `/`. -/
def hasBadge (badges : Option (List Char)) (type_ : List Char) : Bool :=
  match badges with
  | none => false
  | some b =>
    if b = [] then false
    else (splitCh ',' b).any (fun e => (type_ ++ ['/']).isPrefixOf e)

/-- Embedding of `Twitch.parseEmotes` (src/unnamed/part_005 lines 145-173): emote groups
are `/`-separated, each `id:start-end,start-end`; a position whose bounds
parse, are ordered, and fit in the message contributes one
`(name, url, name)` triple, the name being the message slice. -/
def parseEmotes (emotesStr : Option (List Char)) (message : List Char) :
    List (String × String × String) :=
  match emotesStr with
  | none => []
  | some es =>
    if es = [] ∨ message = [] then []
    else
      (splitCh '/' es).foldl
        (fun emotes group =>
          if group = [] then emotes
          else
            match idxOfChar ':' group with
            | none => emotes
            | some colonIdx =>
              let emoteId := group.take colonIdx
              let positions := splitCh ',' (group.drop (colonIdx + 1))
              emotes ++ positions.foldr
                (fun pos acc =>
                  let pieces := splitCh '-' pos
                  let startStr := pieces.headD []
                  let endStr := (pieces.drop 1).headD []
                  match jsParseInt startStr, jsParseInt endStr with
                  | some s, some e =>
                    if s ≤ e ∧ e < (message.length : Int) then
                      let name := String.mk ((message.take (e.toNat + 1)).drop s.toNat)
                      let url := "https://static-cdn.jtvnw.net/emoticons/v2/" ++
                        String.mk emoteId ++ "/default/dark/1.0"
                      (name, url, name) :: acc
                    else acc
                  | _, _ => acc)
                [])
        []

/-- JS truthiness chain `a || b || c` over possibly-empty strings:
the first value that is neither absent nor empty. -/
def firstTruthy (xs : List (Option (List Char))) (dflt : List Char) : List Char :=
  match xs with
  | [] => dflt
  | x :: rest =>
    match x with
    | some v => if v = [] then firstTruthy rest dflt else v
    | none => firstTruthy rest dflt

/-- Embedding of `Twitch.prepareChatMessage` (src/unnamed/part_005 lines 180-221).
`now` passes `Date.now()` explicitly.  A missing or empty `id` tag is
falsy and yields `none` (warn-and-drop); otherwise the native tag id is
passed unchanged to the `ChatMessage` constructor, the username is the
first truthy of display-name, prefix nick, and `"Unknown"`, and the role
flags come from the `mod`/`subscriber` tags or the badge list. -/
def prepareChatMessage (channel : String) (parsed : ParsedIrc) (now : Int) :
    Option ChatMessage :=
  let tags := parsed.tags
  -- JS: const messageText = parsed.trailing or the empty string
  let messageText : List Char := parsed.trailing.getD []
  -- JS: const id = tags[id]; a falsy id returns null
  match tagsGet tags "id".data with
  | none => none
  | some idv =>
    if idv = [] then none
    else
      -- JS: tags[display-name], else the prefix nick, else Unknown
      let username := firstTruthy
        [tagsGet tags "display-name".data, extractUsername parsed.pfx] "Unknown".data
      -- tmiSentTs ? parseInt(tmiSentTs, 10) : Date.now()
      let sent_at : Option Int :=
        match tagsGet tags "tmi-sent-ts".data with
        | some ts => if ts = [] then some now else jsParseInt ts
        | none => some now
      -- JS: const badges = tags[badges] or the empty string
      let badgesV : List Char := (tagsGet tags "badges".data).getD []
      let colorV : List Char := (tagsGet tags "color".data).getD []
      some
        { id := String.mk idv
          platform := "Twitch"
          channel := channel
          username := String.mk username
          message := String.mk messageText
          sent_at := sent_at
          is_owner := hasBadge (some badgesV) "broadcaster".data
          is_mod := tagsGet tags "mod".data = some ['1'] ∨
            hasBadge (some badgesV) "moderator".data
          is_sub := tagsGet tags "subscriber".data = some ['1'] ∨
            hasBadge (some badgesV) "subscriber".data
          is_verified := hasBadge (some badgesV) "partner".data
          emojis := parseEmotes (tagsGet tags "emotes".data) messageText
          extra := [("userId", (tagsGet tags "user-id".data).map String.mk),
                    ("color", some (String.mk colorV)),
                    ("badges", some (String.mk badgesV))] }

end Twitch

namespace YouTube

open Chuck

/-- The static `YouTube.namespace` (src/src/platforms/youtube.js line 19). -/
def ytNamespace : String := "fd60ac36-d6b5-49dc-aee6-b0d87d130582"

/-- The `currencyData` table of `paymentValue`
(src/src/platforms/youtube.js lines 125-145), in object-literal insertion
order.  The literal lists the key `chf` twice with the same value `CHF`;
a JS object keeps one entry at the first position, as here. -/
def currencyData : List (String × String) :=
  [("us$", "USD"), ("a$", "AUD"), ("c$", "CAD"), ("clp$", "CLP"), ("cop$", "COP"),
   ("hk$", "HKD"), ("mx$", "MXN"), ("nt$", "TWD"), ("nz$", "NZD"), ("r$", "BRL"),
   ("rd$", "DOP"), ("s$", "SGD"), ("s/", "PEN"), ("b/.", "PAB"), ("bs.", "BOB"),
   ("лв", "BGN"), ("ден", "MKD"), ("дин.", "RSD"), ("ر.س", "SAR"), ("د.إ", "AED"),
   ("br", "BYN"), ("kn", "HRK"), ("kč", "CZK"), ("kr", "SEK"), ("ft", "HUF"),
   ("zł", "PLN"), ("cfa", "XOF"), ("ush", "UGX"), ("lei", "RON"), ("chf", "CHF"),
   ("€", "EUR"), ("£", "GBP"), ("¥", "JPY"), ("₩", "KRW"), ("₹", "INR"), ("₪", "ILS"),
   ("₱", "PHP"), ("₽", "RUB"), ("₺", "TRY"), ("₦", "NGN"), ("₲", "PYG"), ("₡", "CRC"),
   ("q", "GTQ"), ("l", "HNL"), ("$", "USD"), ("r", "ZAR"),
   ("aed", "AED"), ("ars", "ARS"), ("aud", "AUD"), ("bgn", "BGN"), ("bob", "BOB"),
   ("brl", "BRL"), ("byn", "BYN"), ("cad", "CAD"), ("clp", "CLP"),
   ("cop", "COP"), ("crc", "CRC"), ("czk", "CZK"), ("dkk", "DKK"), ("dop", "DOP"),
   ("eur", "EUR"), ("gbp", "GBP"), ("gtq", "GTQ"), ("hkd", "HKD"), ("hnl", "HNL"),
   ("hrk", "HRK"), ("huf", "HUF"), ("ils", "ILS"), ("inr", "INR"), ("isk", "ISK"),
   ("jpy", "JPY"), ("krw", "KRW"), ("mkd", "MKD"), ("mxn", "MXN"), ("ngn", "NGN"),
   ("nio", "NIO"), ("nok", "NOK"), ("nzd", "NZD"), ("pab", "PAB"), ("pen", "PEN"),
   ("php", "PHP"), ("pln", "PLN"), ("pyg", "PYG"), ("ron", "RON"), ("rsd", "RSD"),
   ("rub", "RUB"), ("sar", "SAR"), ("sek", "SEK"), ("sgd", "SGD"), ("twd", "TWD"),
   ("try", "TRY"), ("ugx", "UGX"), ("usd", "USD"), ("xof", "XOF"), ("zar", "ZAR")]

/-- Stable insertion step for the descending-length sort: an element goes
in front of the first element that is not strictly longer, so elements of
equal length keep their original relative order. -/
def insertDesc (x : String) : List String → List String
  | [] => [x]
  | y :: ys => if y.length ≤ x.length then x :: y :: ys else y :: insertDesc x ys

/-- Stable insertion sort by descending length. -/
def sortDesc : List String → List String
  | [] => []
  | x :: xs => insertDesc x (sortDesc xs)

/-- JS `Object.keys(currencyData).sort((a, b) => b.length - a.length)`
(src/src/platforms/youtube.js lines 147-148): the symbol alternation,
longest symbols first; `Array.prototype.sort` with this comparator is a
stable descending sort by length, realized here by a stable insertion
sort. -/
def sortedSymbols : List String :=
  sortDesc (currencyData.map Prod.fst)

/-- JS regex `\s` whitespace class (no `u` flag). -/
def isJsWs (c : Char) : Bool :=
  c = ' ' ∨ c = '\t' ∨ c = '\n' ∨ c = '\r' ∨ c.toNat = 0xB ∨ c.toNat = 0xC ∨
  c.toNat = 0xA0 ∨ c.toNat = 0x1680 ∨ (0x2000 ≤ c.toNat ∧ c.toNat ≤ 0x200A) ∨
  c.toNat = 0x2028 ∨ c.toNat = 0x2029 ∨ c.toNat = 0x202F ∨ c.toNat = 0x205F ∨
  c.toNat = 0x3000 ∨ c.toNat = 0xFEFF

/-- The case-folding fragment of the `i` regex flag relevant to the
alphabet of `currencyData` keys: ASCII letters, the Latin letters `č`
and `ł`, and the basic Cyrillic block; every other character (including
exotic case pairs such as the Kelvin sign, which the non-Unicode `i`
flag does not fold to `k`) is left unchanged.  All table keys are
already lowercase, so a character matches a key character exactly when
this fold maps it to the key character. -/
def fragToLower (c : Char) : Char :=
  if 'A' ≤ c ∧ c ≤ 'Z' then Char.ofNat (c.toNat + 32)
  else if c = 'Č' then 'č'
  else if c = 'Ł' then 'ł'
  else if 0x410 ≤ c.toNat ∧ c.toNat ≤ 0x42F then Char.ofNat (c.toNat + 0x20)
  else c

/-- Case-insensitive prefix test against a (lowercase) symbol. -/
def ciPrefixOf (sym : List Char) (text : List Char) : Bool :=
  (text.take sym.length).map fragToLower = sym

/-- JS regex character class `[\d,]`. -/
def isDigitComma (c : Char) : Bool :=
  isDigitCh c ∨ c = ','

/-- Holds when the remainder consists solely of `\s` characters
(the closing `\s*$` of the payment regex). -/
def isWsOnly (cs : List Char) : Bool :=
  cs.all isJsWs

/-- The optional fraction `(?:\.\d{1,2})?` immediately followed by
`\s*$`, with the greedy two-digit alternative tried before the one-digit
and empty alternatives, exactly as the backtracking regex engine does.
Returns the fraction characters consumed. -/
def fracThenEnd (rest : List Char) : Option (List Char) :=
  (match rest with
   | '.' :: d1 :: d2 :: r =>
     if isDigitCh d1 ∧ isDigitCh d2 ∧ isWsOnly r then some ['.', d1, d2] else none
   | _ => none) <|>
  (match rest with
   | '.' :: d1 :: r =>
     if isDigitCh d1 ∧ isWsOnly r then some ['.', d1] else none
   | _ => none) <|>
  (if isWsOnly rest then some [] else none)

/-- The amount `([\d,]+(?:\.\d{1,2})?)` anchored to the end of the input
(`<symbol><amount>` ordering): a maximal nonempty digit-or-comma run —
the only viable one, since a shorter run leaves a digit or comma that
neither the fraction nor `\s*$` can consume — then the fraction. -/
def amountToEnd (cs : List Char) : Option (List Char) :=
  let run := cs.takeWhile isDigitComma
  if run = [] then none
  else (fracThenEnd (cs.drop run.length)).map (run ++ ·)

/-- The leading-symbol alternative `(symbols)\s*(amount)` of the payment
regex: the first symbol (longest first) that case-insensitively prefixes
the text and whose remainder completes the match.  Returns the symbol key
and the amount characters. -/
def matchLeading (cs : List Char) : Option (String × List Char) :=
  sortedSymbols.findSome? (fun sym =>
    if ciPrefixOf sym.data cs then
      (amountToEnd ((cs.drop sym.data.length).dropWhile isJsWs)).map (fun a => (sym, a))
    else none)

/-- The symbol match at the end of the input, for the trailing-symbol
alternative: first symbol (longest first) that prefixes the remainder,
followed only by whitespace. -/
def symToEnd (cs : List Char) : Option String :=
  sortedSymbols.find? (fun sym =>
    ciPrefixOf sym.data cs ∧ isWsOnly (cs.drop sym.data.length))

/-- The trailing-symbol alternative `(amount)\s*(symbols)` of the payment
regex: a maximal digit-or-comma run (no symbol begins with a digit or
comma, so shorter runs cannot complete), then greedy fraction backtracking
from two fraction digits down to none, each followed by `\s*` and a
symbol reaching the end. -/
def matchTrailing (cs : List Char) : Option (String × List Char) :=
  let run := cs.takeWhile isDigitComma
  if run = [] then none
  else
    let rest := cs.drop run.length
    (match rest with
     | '.' :: d1 :: d2 :: r =>
       if isDigitCh d1 ∧ isDigitCh d2 then
         (symToEnd (r.dropWhile isJsWs)).map (fun s => (s, run ++ ['.', d1, d2]))
       else none
     | _ => none) <|>
    (match rest with
     | '.' :: d1 :: r =>
       if isDigitCh d1 then
         (symToEnd (r.dropWhile isJsWs)).map (fun s => (s, run ++ ['.', d1]))
       else none
     | _ => none) <|>
    (symToEnd (rest.dropWhile isJsWs)).map (fun s => (s, run))

/-- The full payment regex
`^\s*(?:(symbols)\s*(amount)|(amount)\s*(symbols))\s*$` with the
leading-symbol alternative tried first.  Returns the matched symbol
(already lowercased: case-insensitive matching against the lowercase
table keys makes `match.toLowerCase()` reproduce the key) and the
matched amount characters. -/
def matchPayment (cs : List Char) : Option (String × List Char) :=
  let cs := cs.dropWhile isJsWs
  matchLeading cs <|> matchTrailing cs

/-- JS `parseFloat` of the comma-stripped amount string
(src/src/platforms/youtube.js line 162) on a matched amount: strip
commas, then integer and up-to-two-digit fraction; a digit-free string
parses to `NaN` (`none`). -/
def parseAmountFloat (amt : List Char) : JsNum :=
  let stripped := amt.filter (· ≠ ',')
  let intPart := stripped.takeWhile isDigitCh
  let rest := stripped.drop intPart.length
  let frac := match rest with
    | '.' :: ds => ds
    | _ => []
  if intPart = [] ∧ frac = [] then none
  else some ((digitsToNat intPart : ℚ) + (digitsToNat frac : ℚ) / (10 ^ frac.length))

/-- Embedding of `paymentValue(paymentText)` (src/src/platforms/youtube.js lines
124-166), the Currency/Amount Extractor `extractAmount` of design §4.4:
no regex match returns the null pair; otherwise the currency code is the
table entry for the matched symbol (`|| null` when absent) and the
amount is the parsed number. -/
def paymentValue (paymentText : String) : Option String × Option JsNum :=
  match matchPayment paymentText.data with
  | none => (none, none)
  | some (sym, amt) =>
    ((currencyData.find? (fun p => p.1 = sym)).map Prod.snd, some (parseAmountFloat amt))

/-! ### YouTube action shapes -/

/-- One author badge (the content of `liveChatAuthorBadgeRenderer`):
an optional `icon.iconType` and whether a `customThumbnail` is present. -/
structure YTBadge where
  iconType : Option String := none
  customThumbnail : Bool := false
deriving Repr, DecidableEq

/-- One element of `renderer.message.runs`: literal text, an emoji with
its thumbnail urls, or an unrecognized run (logged and skipped). -/
inductive YTRun
  | text (s : String)
  | emoji (emojiId : String) (thumbs : List String)
  | unknown
deriving Repr, DecidableEq

/-- The shared shape of `liveChatTextMessageRenderer` and
`liveChatPaidMessageRenderer`: `authorName` holds the `simpleText`
content, `authorPhotoThumbs` the `authorPhoto.thumbnails` urls (empty
when the photo block is missing or empty — both fail the guard),
`purchaseAmountText` the `simpleText` of the purchase amount (paid
messages only), `message` the run list when `message.runs` is present. -/
structure YTRenderer where
  id : Option String := none
  authorName : Option String := none
  authorPhotoThumbs : List String := []
  timestampUsec : Option Int := none
  authorBadges : Option (List YTBadge) := none
  purchaseAmountText : Option String := none
  message : Option (List YTRun) := none
deriving Repr, DecidableEq

/-- The shared shape of `liveChatMembershipGiftingEventRenderer` and
`liveChatGiftMembershipReceivedEventRenderer`.  `numGiftedMembers` is
`none` when the native event lacks the field (JS `undefined`, whose
arithmetic yields `NaN`). -/
structure YTGiftEvent where
  id : String
  authorName : Option String := none
  authorPhotoThumbs : List String := []
  timestampUsec : Option Int := none
  numGiftedMembers : Option ℚ := none
deriving Repr, DecidableEq

/-- The `liveChatPlaceholderItemRenderer` content. -/
structure YTPlaceholder where
  id : String
  timestampUsec : Option Int := none
deriving Repr, DecidableEq

/-- The discriminated `action.item` sub-shapes recognized by
`prepareChatMessages` (mutually exclusive per design §4.5). -/
inductive YTItem
  | liveChatTextMessageRenderer (r : YTRenderer)
  | liveChatPaidMessageRenderer (r : YTRenderer)
  | liveChatMembershipGiftingEventRenderer (g : YTGiftEvent)
  | liveChatGiftMembershipReceivedEventRenderer (g : YTGiftEvent)
  | liveChatPlaceholderItemRenderer (p : YTPlaceholder)
  | unknownRenderer
deriving Repr, DecidableEq

/-- One element of the `actions` array; `none` models a null action or an
action without an `item` (the `!action?.item` guard). -/
abbrev YTAction := Option YTItem

/-- The local `hasBadge(badges, iconType)` of `prepareChatMessages`
(src/src/platforms/youtube.js lines 112-116). -/
def hasBadgeYT (badges : Option (List YTBadge)) (iconType : String) : Bool :=
  match badges with
  | none => false
  | some bs => bs.any (fun b => b.iconType = some iconType)

/-- The local `isMember(badges)` of `prepareChatMessages`
(src/src/platforms/youtube.js lines 118-122). -/
def isMember (badges : Option (List YTBadge)) : Bool :=
  match badges with
  | none => false
  | some bs => bs.any (fun b => b.customThumbnail)

/-- Approximates JS string interpolation of a number for the derived
gift-message bodies (display text only; no claim inspects it). -/
def jsNumToString (n : Option ℚ) : String :=
  match n with
  | none => "undefined"
  | some q => if q.den = 1 then toString q.num else toString q

/-- The run-list fold of `prepareChatMessages`
(src/src/platforms/youtube.js lines 202-214): text runs append to the
body; emoji runs append `:id: ` (with trailing space) and push an emoji
triple whose url is the last thumbnail or the empty string. -/
def foldRuns (runs : List YTRun) : String × List (String × String × String) :=
  runs.foldl
    (fun acc run =>
      match run with
      | .text s => (acc.1 ++ s, acc.2)
      | .emoji eid thumbs =>
        (acc.1 ++ ":" ++ eid ++ ": ",
         acc.2 ++ [(":" ++ eid ++ ":", (thumbs.getLast?).getD "", eid)])
      | .unknown => acc)
    ("", [])

/-- The text/paid branch of `prepareChatMessages`
(src/src/platforms/youtube.js lines 172-216): skip when id, author name
or author photo thumbnails are missing; otherwise build the message with
the namespaced id, role flags from the badges, and — for paid messages —
the `paymentValue` guard that sets `amount` and `currency` together or
not at all.  A paid renderer without `purchaseAmountText` dereferences
`undefined` in the source and rejects the whole batch (`Except.error`). -/
def prepareTextOrPaid (channel : String) (isPaid : Bool) (r : YTRenderer) :
    Except Unit (Option ChatMessage) :=
  if r.id.isNone ∨ r.authorName.isNone ∨ r.authorPhotoThumbs = [] then
    .ok none
  else
    let body := foldRuns (r.message.getD [])
    let base : ChatMessage :=
      { id := identity ytNamespace (r.id.getD "")
        platform := "YouTube"
        channel := channel
        username := r.authorName.getD ""
        avatar := some ((r.authorPhotoThumbs.getLast?).getD "")
        sent_at := r.timestampUsec.map (· / 1000)
        is_verified := hasBadgeYT r.authorBadges "VERIFIED"
        is_sub := isMember r.authorBadges
        is_mod := hasBadgeYT r.authorBadges "MODERATOR"
        is_owner := hasBadgeYT r.authorBadges "OWNER"
        message := body.1
        emojis := body.2 }
    if isPaid then
      match r.purchaseAmountText with
      | none => .error ()
      | some t =>
        let pv := paymentValue t
        if pv.1.isNone ∨ pv.2.isNone then
          -- the source warns that it could not parse the amount and leaves both unset
          .ok (some base)
        else
          .ok (some { base with amount := pv.2, currency := pv.1 })
    else
      .ok (some base)

/-- The membership-gifting branch of `prepareChatMessages`
(src/src/platforms/youtube.js lines 217-231): synthesized monetary
fields `currency = "USD"`, `amount = 5.00`.  The source dereferences
`authorName.simpleText` and `authorPhoto.thumbnails.at(-1).url` without
a guard, so their absence rejects the batch. -/
def prepareGifting (channel : String) (g : YTGiftEvent) :
    Except Unit (Option ChatMessage) :=
  match g.authorName, g.authorPhotoThumbs.getLast? with
  | some name, some av =>
    .ok (some
      { id := identity ytNamespace g.id
        platform := "YouTube"
        channel := channel
        username := name
        avatar := some av
        sent_at := g.timestampUsec.map (· / 1000)
        message := name ++ " gifted " ++ jsNumToString g.numGiftedMembers ++ " memberships!"
        currency := some "USD"
        amount := some (some 5) })
  | _, _ => .error ()

/-- The gift-received branch of `prepareChatMessages`
(src/src/platforms/youtube.js lines 232-246): synthesized
`currency = "USD"` and `amount = numGiftedMembers * 5.00` (`NaN` when
the field is absent). -/
def prepareGiftReceived (channel : String) (g : YTGiftEvent) :
    Except Unit (Option ChatMessage) :=
  match g.authorName, g.authorPhotoThumbs.getLast? with
  | some name, some av =>
    .ok (some
      { id := identity ytNamespace g.id
        platform := "YouTube"
        channel := channel
        username := name
        avatar := some av
        sent_at := g.timestampUsec.map (· / 1000)
        message := name ++ " received a gifted membership!"
        currency := some "USD"
        amount := some (g.numGiftedMembers.map (· * 5)) })
  | _, _ => .error ()

/-- One iteration of the `actions.map` of `prepareChatMessages`
(src/src/platforms/youtube.js lines 168-262).  The final
`typeof ... !== undefined` comparison in the source is always true
(it compares a type string against the value `undefined`), so the
placeholder branch is reached whenever no earlier shape matched and
produces a message exactly when the placeholder renderer is present. -/
def prepareChatMessageItem (channel : String) (action : YTAction) :
    Except Unit (Option ChatMessage) :=
  match action with
  | none => .ok none
  | some (.liveChatTextMessageRenderer r) => prepareTextOrPaid channel false r
  | some (.liveChatPaidMessageRenderer r) => prepareTextOrPaid channel true r
  | some (.liveChatMembershipGiftingEventRenderer g) => prepareGifting channel g
  | some (.liveChatGiftMembershipReceivedEventRenderer g) => prepareGiftReceived channel g
  | some (.liveChatPlaceholderItemRenderer p) =>
    .ok (some
      { id := identity ytNamespace p.id
        platform := "YouTube"
        channel := channel
        sent_at := p.timestampUsec.map (· / 1000)
        is_placeholder := true })
  | some .unknownRenderer => .ok none

/-- Embedding of `YouTube.prepareChatMessages(actions)`
(src/src/platforms/youtube.js lines 111-264): map every action, filter
out the nulls; a rejection inside any item rejects the whole batch
(`Promise.all` semantics). -/
def prepareChatMessages (channel : String) (actions : List YTAction) :
    Except Unit (List ChatMessage) :=
  (actions.mapM (prepareChatMessageItem channel)).map (·.filterMap id)

end YouTube

namespace Seed

/-! ## Command Dispatcher

`src/core/seed.js` is not under `src/`; only its test suite
(src/unnamed/part_000) is.  The dispatcher is modelled from design §4.6
and §6 and the behaviors those tests pin down. -/

/-- A parsed JSON value, as produced by `JSON.parse`. -/
inductive JsValue
  | null
  | bool (b : Bool)
  | num (q : ℚ)
  | str (s : String)
  | arr (xs : List JsValue)
  | obj (fields : List (String × JsValue))
deriving Repr

/-- Property read on a parsed JSON value: `none` models `undefined`
(read on a non-object or absent key; `JSON.parse` keeps the last of
duplicate keys). -/
def getProp (v : JsValue) (key : String) : Option JsValue :=
  match v with
  | .obj fields => ((fields.reverse).find? (fun p => p.1 = key)).map Prod.snd
  | _ => none

/-- The observable outcome of one dispatch: which handler ran with which
`data` argument (`none` models `undefined`), or a verbose-only log of an
unknown discriminator, or nothing at all. -/
inductive DispatchOutcome
  | invoked (handler : String) (data : Option JsValue)
  | unknownCommand (type_ : String) (data : Option JsValue)
  | noHandler
deriving Repr

/-- Modelled from the spec: `Seed.handleServerCommand(type, data)`
(src/core/seed.js, not under `src/`).  Per design §4.6 and the tests in
src/unnamed/part_000 lines 68-101: `inject_message` routes to
`injectMessage` with `data` passed through unchanged (including
null/undefined); any other discriminator is logged in debug mode and
dropped; no input raises. -/
def handleServerCommand (type_ : String) (data : Option JsValue) : DispatchOutcome :=
  if type_ = "inject_message" then
    .invoked "injectMessage" data
  else
    .unknownCommand type_ data

/-- Modelled from the spec: `Seed.onChatSocketMessage(ws, event)`
(src/core/seed.js, not under `src/`).  Per design §4.6 and the tests in
src/unnamed/part_000 lines 119-165: the raw text is parsed as JSON —
`parsed` is that result, `none` when `JSON.parse` throws; unparsable
text or a parse without a string `type` discriminator invokes no
handler; otherwise the command is dispatched with the `data` property
passed through unchanged. -/
def onChatSocketMessage (parsed : Option JsValue) : DispatchOutcome :=
  match parsed with
  | none => .noHandler
  | some v =>
    match getProp v "type" with
    | some (.str t) => handleServerCommand t (getProp v "data")
    | _ => .noHandler

end Seed

namespace Rumble

open Chuck

/-! ## Rumble subscription records

`src/platforms/rumble.js` is not under `src/`; only its test suites
(src/unnamed/part_002, src/test/platforms/rumble.test.js) are.  The
`prepareSubscriptions` capability is modelled from design §4.5/§7 and
the behaviors those tests pin down. -/

/-- A native Rumble chat/notification event, reduced to the fields the
subscription path reads: the native id, the notification kind carried by
the event (`none` for ordinary chat messages), the buying user's native
id, and the gift count. -/
structure RumbleEvent where
  id : String
  notification : Option String := none
  userId : String := ""
  giftCount : Option Nat := none
deriving Repr, DecidableEq

/-- A native Rumble user-directory record. -/
structure RumbleUser where
  id : String
  username : String
deriving Repr, DecidableEq

/-- The subscription/gift record of design §3. -/
structure SubRecord where
  id : String
  gifted : Bool
  buyer : String
  count : Nat
  value : Nat
deriving Repr, DecidableEq

/-- Modelled from the spec: `Rumble.prepareSubscriptions(messages, users)`
(src/platforms/rumble.js, not under `src/`).  Per design §4.5/§7 and the
tests in src/unnamed/part_002 lines 88-152: ordinary chat events are
filtered out; a `gift_purchase_notification` maps to a gifted record and
a plain `notification` to a non-gifted one with count 1, both valued 5,
with the buyer name resolved through the user directory; a buyer id
absent from the directory yields an `undefined` slot (`none`) plus a
diagnostic naming that native id, never a raised failure.  The second
component collects the diagnostics. -/
def prepareSubscriptions (events : List RumbleEvent) (users : List RumbleUser) :
    List (Option SubRecord) × List String :=
  events.foldl
    (fun acc ev =>
      match ev.notification with
      | none => acc
      | some kind =>
        let gifted := kind = "gift_purchase_notification"
        if gifted ∨ kind = "notification" then
          match users.find? (fun u => u.id = ev.userId) with
          | some u =>
            (acc.1 ++ [some
              { id := ev.id
                gifted := gifted
                buyer := u.username
                count := if gifted then ev.giftCount.getD 1 else 1
                value := 5 }], acc.2)
          | none =>
            (acc.1 ++ [none], acc.2 ++ ["User not found: " ++ ev.userId])
        else acc)
    ([], [])

end Rumble

namespace Chuck

/-! ## Frame serialization (design §8 round-trip property)

The design states the property for re-serialized frames: the line is the
command, the space-joined params, then a space-colon marker and the
trailing text when present. -/

/-- Space-join of the command-and-params sequence. -/
def joinSp : List (List Char) → List Char
  | [] => []
  | [p] => p
  | p :: q :: rest => p ++ ' ' :: joinSp (q :: rest)

/-- Re-serialize a frame: `verb params... :trailing` or `verb params...`
when there is no trailing part (design §4.2/§8). -/
def serializeFrame (cmd : List Char) (params : List (List Char))
    (trailing : Option (List Char)) : List Char :=
  joinSp (cmd :: params) ++
    (match trailing with
     | some t => ' ' :: ':' :: t
     | none => [])

/-- A frame is well-formed for the round-trip property when the command
is nonempty, space-free and does not begin with a tag or prefix sentinel,
and every param is nonempty, space-free and does not begin with the
trailing sentinel. -/
def WellFormedFrame (cmd : List Char) (params : List (List Char)) : Prop :=
  cmd ≠ [] ∧ ' ' ∉ cmd ∧ cmd.head? ≠ some '@' ∧ cmd.head? ≠ some ':' ∧
    ∀ p ∈ params, p ≠ [] ∧ ' ' ∉ p ∧ p.head? ≠ some ':'

end Chuck

/-! ## Concrete sample values used by witness theorems -/

/-- The chat-post frame of the design §8 scenario (tags
`id=abc123;display-name=TestUser;badges=moderator/1,subscriber/24;mod=1;subscriber=1`,
trailing `Hello chat!`). -/
def scenarioPrivmsgLine : List Char :=
  ("@id=abc123;display-name=TestUser;badges=moderator/1,subscriber/24;mod=1;subscriber=1 " ++
   ":testuser!testuser@testuser.tmi.twitch.tv PRIVMSG #streamerchannel :Hello chat!").data

/-- The canonical message the text-protocol adapter produces for
`scenarioPrivmsgLine` (at `Date.now() = 0`). -/
def scenarioPrepared : Option Chuck.ChatMessage :=
  Twitch.prepareChatMessage "streamerchannel"
    (Twitch.parseIrcMessageToJson scenarioPrivmsgLine) 0

/-- A membership-gifting action used as a concrete witness input. -/
def sampleGiftingAction : YouTube.YTAction :=
  some (.liveChatMembershipGiftingEventRenderer
    { id := "gift-event-1"
      authorName := some "Gifter"
      authorPhotoThumbs := ["https://example.com/p.jpg"]
      numGiftedMembers := some 3 })

/-- A gift-received action used as a concrete witness input. -/
def sampleReceivedEvent : YouTube.YTGiftEvent :=
  { id := "gift-recv-1"
    authorName := some "Recipient"
    authorPhotoThumbs := ["https://example.com/r.jpg"]
    numGiftedMembers := some 3 }

/-- The batch produced from the sample gifting action. -/
def sampleGiftingMsgs : List Chuck.ChatMessage :=
  ((YouTube.prepareChatMessages "chan" [sampleGiftingAction]).toOption).getD []

/-- The single message of `sampleGiftingMsgs`. -/
def sampleGiftingMsg : Chuck.ChatMessage :=
  sampleGiftingMsgs.headD { id := "", platform := "", channel := "" }

/-- The message produced from the sample gift-received event. -/
def sampleReceivedMsg : Chuck.ChatMessage :=
  (((YouTube.prepareChatMessageItem "chan"
      (some (.liveChatGiftMembershipReceivedEventRenderer sampleReceivedEvent))).toOption).getD
    none).getD { id := "", platform := "", channel := "" }

/-!
# Theorems

First the claims that evaluate concretely, then the structural ones.
-/

/-- C2 (divergence at the failing input): on the tag value consisting of
an escaped backslash followed by the letter `s` (three characters:
backslash, backslash, `s`), the tokenizer's unescaping yields a backslash
followed by a space — the chained global replaces let the `\s` replace
consume the second half of the escaped backslash — whereas a single
left-to-right unescape pass applied exactly once yields a backslash
followed by the letter `s`. -/
theorem c2_unescape_divergence :
    Twitch.parseIrcTags ("key=\\\\s".data) = [("key".data, ['\\', ' '])] ∧
    Twitch.unescapeTagValue ['\\', '\\', 's'] = ['\\', ' '] ∧
    Twitch.unescapeTagValue ['\\', '\\', 's'] ≠ ['\\', 's'] := by
  refine ⟨by decide, by decide, by decide⟩

/-- C1 (counterexample): the text-protocol adapter prepares the scenario
chat-post frame into a message whose id is the raw native id `abc123`,
which is not the namespaced deterministic hash
`identity(namespace, "abc123")` the claim requires. -/
theorem c1_id_not_identity :
    scenarioPrepared.map Chuck.ChatMessage.id = some "abc123" ∧
    some (Chuck.identity Twitch.twitchNamespace "abc123") ≠ some "abc123" := by
  refine ⟨by decide, by decide⟩

/-- C1 (amended): tokenizing the scenario chat-post frame and passing it
to `prepareChatMessage` yields a message whose id is the native tag id
`abc123` passed through unchanged (not namespaced-hashed), whose username
is `TestUser`, whose body is `Hello chat!`, and whose `is_mod` and
`is_sub` flags are both true. -/
theorem c1_amended_scenario :
    scenarioPrepared.map Chuck.ChatMessage.id = some "abc123" ∧
    scenarioPrepared.map Chuck.ChatMessage.username = some "TestUser" ∧
    scenarioPrepared.map Chuck.ChatMessage.message = some "Hello chat!" ∧
    scenarioPrepared.map Chuck.ChatMessage.is_mod = some true ∧
    scenarioPrepared.map Chuck.ChatMessage.is_sub = some true := by
  refine ⟨by decide, by decide, by decide, by decide, by decide⟩

/-- C4: the text-protocol tokenizer is a total function — for every input
string (empty, unterminated tag or prefix blocks, missing trailing
marker, unicode content included) it returns a possibly partial
`ParsedIrc` frame carrying the raw input, and never an exception (every
JS operation it performs is total, and so is this embedding). -/
theorem c4_tokenizer_total_and_partial :
    (∀ s : List Char, (Twitch.parseIrcMessageToJson s).raw = s) ∧
    Twitch.parseIrcMessageToJson [] = { raw := [] } ∧
    Twitch.parseIrcMessageToJson ("@id=1;flag".data) = { raw := "@id=1;flag".data } ∧
    Twitch.parseIrcMessageToJson (":unterminated".data) =
      { raw := ":unterminated".data } ∧
    Twitch.parseIrcMessageToJson ("PING".data) =
      { raw := "PING".data, command := some ("PING".data) } ∧
    (Twitch.parseIrcMessageToJson ("PRIVMSG #c :héllo 🎉 ∀".data)).command =
      some ("PRIVMSG".data) ∧
    (Twitch.parseIrcMessageToJson ("PRIVMSG #c :héllo 🎉 ∀".data)).trailing =
      some ("héllo 🎉 ∀".data) := by
  refine ⟨?_, by decide, by decide, by decide, by decide, by decide, by decide⟩
  intro s
  unfold Twitch.parseIrcMessageToJson
  dsimp only
  repeat' split
  all_goals rfl

/-- C6: `hasBadge` over a comma-separated `token/version` list is true
exactly when some entry is the queried token, a slash, and a version; a
null or empty badge list is false for every token, and the four concrete
cases of design §8 hold. -/
theorem c6_hasBadge_spec :
    (∀ tok : List Char, Twitch.hasBadge none tok = false) ∧
    (∀ tok : List Char, Twitch.hasBadge (some []) tok = false) ∧
    Twitch.hasBadge (some ("moderator/1,subscriber/24".data)) ("moderator".data) = true ∧
    Twitch.hasBadge (some ("subscriber/12".data)) ("moderator".data) = false ∧
    ∀ (bl tok : List Char),
      Twitch.hasBadge (some bl) tok = true ↔
        bl ≠ [] ∧ ∃ e ∈ Chuck.splitCh ',' bl, ∃ v, e = tok ++ '/' :: v := by
  refine ⟨fun tok => rfl, fun tok => rfl, by decide, by decide, fun bl tok => ?_⟩
  by_cases hbl : bl = []
  · subst hbl
    simp [Twitch.hasBadge]
  · have hb : Twitch.hasBadge (some bl) tok =
        ((Chuck.splitCh ',' bl).any fun e => (tok ++ ['/']).isPrefixOf e) := by
      unfold Twitch.hasBadge
      simp [hbl]
    rw [hb, List.any_eq_true]
    constructor
    · rintro ⟨e, he, hpre⟩
      refine ⟨hbl, e, he, ?_⟩
      rcases List.isPrefixOf_iff_prefix.mp hpre with ⟨v, hv⟩
      exact ⟨v, by simpa [List.append_assoc] using hv.symm⟩
    · rintro ⟨-, e, he, v, rfl⟩
      refine ⟨tok ++ '/' :: v, he, ?_⟩
      rw [List.isPrefixOf_iff_prefix]
      exact ⟨v, by simp⟩

/-- Any symbol the leading-symbol alternative returns comes from the
symbol table. -/
theorem matchLeading_mem (cs : List Char) (sym : String) (amt : List Char)
    (h : YouTube.matchLeading cs = some (sym, amt)) : sym ∈ YouTube.sortedSymbols := by
  obtain ⟨x, hx, hfx⟩ := List.exists_of_findSome?_eq_some h
  split at hfx
  · obtain ⟨a, -, ha⟩ := Option.map_eq_some'.mp hfx
    cases ha
    exact hx
  · cases hfx

/-- Any symbol the end-of-input symbol match returns comes from the
symbol table. -/
theorem symToEnd_mem (cs : List Char) (sym : String)
    (h : YouTube.symToEnd cs = some sym) : sym ∈ YouTube.sortedSymbols :=
  List.mem_of_find?_eq_some h

/-- Any symbol the trailing-symbol alternative returns comes from the
symbol table. -/
theorem matchTrailing_mem (cs : List Char) (sym : String) (amt : List Char)
    (h : YouTube.matchTrailing cs = some (sym, amt)) : sym ∈ YouTube.sortedSymbols := by
  unfold YouTube.matchTrailing at h
  dsimp only at h
  split at h
  · cases h
  · rcases (Option.orElse_eq_some _ _ _).mp h with h1 | ⟨-, h2⟩
    · split at h1
      · split at h1
        · obtain ⟨s, hs, hpair⟩ := Option.map_eq_some'.mp h1
          cases hpair
          exact symToEnd_mem _ _ hs
        · cases h1
      · cases h1
    · rcases (Option.orElse_eq_some _ _ _).mp h2 with h3 | ⟨-, h4⟩
      · split at h3
        · split at h3
          · obtain ⟨s, hs, hpair⟩ := Option.map_eq_some'.mp h3
            cases hpair
            exact symToEnd_mem _ _ hs
          · cases h3
        · cases h3
      · obtain ⟨s, hs, hpair⟩ := Option.map_eq_some'.mp h4
        cases hpair
        exact symToEnd_mem _ _ hs

/-- Membership is preserved by the stable insertion step. -/
theorem mem_insertDesc (a x : String) (l : List String) :
    a ∈ YouTube.insertDesc x l ↔ a = x ∨ a ∈ l := by
  induction l with
  | nil => simp [YouTube.insertDesc]
  | cons y ys ih =>
    unfold YouTube.insertDesc
    split
    · simp
    · simp only [List.mem_cons, ih]
      tauto

/-- Sorting does not change the set of symbols. -/
theorem mem_sortDesc (a : String) (l : List String) :
    a ∈ YouTube.sortDesc l ↔ a ∈ l := by
  induction l with
  | nil => simp [YouTube.sortDesc]
  | cons y ys ih =>
    unfold YouTube.sortDesc
    rw [mem_insertDesc, ih, List.mem_cons]

/-- Every symbol in the sorted alternation has a currency-code entry in
the table it was built from. -/
theorem sortedSymbols_mapped (sym : String) (h : sym ∈ YouTube.sortedSymbols) :
    (YouTube.currencyData.find? (fun p => p.1 = sym)).isSome := by
  have hmem : sym ∈ YouTube.currencyData.map Prod.fst :=
    (mem_sortDesc sym _).mp h
  obtain ⟨p, hp, rfl⟩ := List.mem_map.mp hmem
  rw [List.find?_isSome]
  exact ⟨p, hp, by simp⟩

/-- C3: the currency/amount extractor recognizes symbol-before-amount and
amount-before-symbol orderings with thousands separators and up to two
decimals (`$5.00`, `€10.00`, `10.00 EUR`, `$12,345.67`); when one symbol
is a literal substring of another the longest match is preferred (`R$` is
read as `BRL`, not as the `ZAR` symbol `R`); text matching no pattern
yields the null pair; whenever no currency code results, no amount
results either; and as a total function it raises on no input. -/
theorem c3_extractAmount_spec :
    YouTube.paymentValue "$5.00" = (some "USD", some (some 5)) ∧
    YouTube.paymentValue "€10.00" = (some "EUR", some (some 10)) ∧
    YouTube.paymentValue "10.00 EUR" = (some "EUR", some (some 10)) ∧
    YouTube.paymentValue "$12,345.67" = (some "USD", some (some (1234567 / 100))) ∧
    YouTube.paymentValue "R$25.00" = (some "BRL", some (some 25)) ∧
    YouTube.paymentValue "arbitrary text" = (none, none) ∧
    ∀ s : String, (YouTube.paymentValue s).1 = none → (YouTube.paymentValue s).2 = none := by
  refine ⟨?_, ?_, ?_, ?_, ?_, ?_, ?_⟩
  · have hm : YouTube.matchPayment "$5.00".data = some ("$", "5.00".data) := by decide
    unfold YouTube.paymentValue
    rw [hm]
    refine Prod.ext (by decide) ?_
    show some (YouTube.parseAmountFloat ("5.00".data)) = some (some 5)
    have hv : YouTube.parseAmountFloat ("5.00".data) = some ((5 : ℚ) + 0 / 10 ^ 2) := by
      simp +decide [YouTube.parseAmountFloat, Chuck.digitsToNat]
    rw [hv]
    norm_num
  · have hm : YouTube.matchPayment "€10.00".data = some ("€", "10.00".data) := by decide
    unfold YouTube.paymentValue
    rw [hm]
    refine Prod.ext (by decide) ?_
    show some (YouTube.parseAmountFloat ("10.00".data)) = some (some 10)
    have hv : YouTube.parseAmountFloat ("10.00".data) = some ((10 : ℚ) + 0 / 10 ^ 2) := by
      simp +decide [YouTube.parseAmountFloat, Chuck.digitsToNat]
    rw [hv]
    norm_num
  · have hm : YouTube.matchPayment "10.00 EUR".data = some ("eur", "10.00".data) := by
      decide
    unfold YouTube.paymentValue
    rw [hm]
    refine Prod.ext (by decide) ?_
    show some (YouTube.parseAmountFloat ("10.00".data)) = some (some 10)
    have hv : YouTube.parseAmountFloat ("10.00".data) = some ((10 : ℚ) + 0 / 10 ^ 2) := by
      simp +decide [YouTube.parseAmountFloat, Chuck.digitsToNat]
    rw [hv]
    norm_num
  · have hm : YouTube.matchPayment "$12,345.67".data = some ("$", "12,345.67".data) := by
      decide
    unfold YouTube.paymentValue
    rw [hm]
    refine Prod.ext (by decide) ?_
    show some (YouTube.parseAmountFloat ("12,345.67".data)) = some (some (1234567 / 100))
    have hv : YouTube.parseAmountFloat ("12,345.67".data) =
        some ((12345 : ℚ) + 67 / 10 ^ 2) := by
      simp +decide [YouTube.parseAmountFloat, Chuck.digitsToNat]
    rw [hv]
    norm_num
  · have hm : YouTube.matchPayment "R$25.00".data = some ("r$", "25.00".data) := by decide
    unfold YouTube.paymentValue
    rw [hm]
    refine Prod.ext (by decide) ?_
    show some (YouTube.parseAmountFloat ("25.00".data)) = some (some 25)
    have hv : YouTube.parseAmountFloat ("25.00".data) = some ((25 : ℚ) + 0 / 10 ^ 2) := by
      simp +decide [YouTube.parseAmountFloat, Chuck.digitsToNat]
    rw [hv]
    norm_num
  · have hm : YouTube.matchPayment "arbitrary text".data = none := by decide
    unfold YouTube.paymentValue
    rw [hm]
  · intro s h1
    unfold YouTube.paymentValue at h1 ⊢
    cases hmp : YouTube.matchPayment s.data with
    | none => rfl
    | some pr =>
      obtain ⟨sym, amt⟩ := pr
      rw [hmp] at h1
      exfalso
      have hmem : sym ∈ YouTube.sortedSymbols := by
        unfold YouTube.matchPayment at hmp
        rcases (Option.orElse_eq_some _ _ _).mp hmp with hL | ⟨-, hT⟩
        · exact matchLeading_mem _ _ _ hL
        · exact matchTrailing_mem _ _ _ hT
      have hsome := sortedSymbols_mapped sym hmem
      simp only [Option.map_eq_none'] at h1
      rw [h1] at hsome
      cases hsome

/-- C3 (witness): text with no symbol or amount pattern resolves to no
currency, and the theorem then gives it no amount. -/
theorem c3_extractAmount_witness : (YouTube.paymentValue "zzz").2 = none :=
  (c3_extractAmount_spec.2.2.2.2.2.2) "zzz" (by decide)

/-- C7: the command dispatcher routes a recognized discriminator to its
handler with the `data` property passed through unchanged (including a
null or absent `data`), invokes no handler for unparsable text or a parse
without a string `type` discriminator, and logs-and-drops unrecognized
discriminators; as a total function it raises on no input. -/
theorem c7_dispatcher_spec :
    (∀ d : Option Seed.JsValue,
      Seed.handleServerCommand "inject_message" d = .invoked "injectMessage" d) ∧
    Seed.onChatSocketMessage none = .noHandler ∧
    (∀ v : Seed.JsValue, Seed.getProp v "type" = none →
      Seed.onChatSocketMessage (some v) = .noHandler) ∧
    (∀ (t : String) (d : Option Seed.JsValue), t ≠ "inject_message" →
      Seed.handleServerCommand t d = .unknownCommand t d) ∧
    (∀ (v : Seed.JsValue) (t : String), Seed.getProp v "type" = some (.str t) →
      Seed.onChatSocketMessage (some v) =
        Seed.handleServerCommand t (Seed.getProp v "data")) := by
  refine ⟨fun d => rfl, rfl, ?_, ?_, ?_⟩
  · intro v hv
    simp only [Seed.onChatSocketMessage, hv]
  · intro t d ht
    simp only [Seed.handleServerCommand, if_neg ht]
  · intro v t hv
    simp only [Seed.onChatSocketMessage, hv]

/-- C7 (witness): the dispatcher invokes the injection handler with a
null `data` passed through unchanged. -/
theorem c7_dispatcher_witness :
    Seed.handleServerCommand "inject_message" (some Seed.JsValue.null) =
      .invoked "injectMessage" (some Seed.JsValue.null) :=
  c7_dispatcher_spec.1 (some Seed.JsValue.null)

/-- C8: a gift-subscription event whose buyer id resolves in the user
directory produces exactly one gifted record carrying that user's name
and the gift count; the same event with an absent buyer id produces
exactly one `undefined` slot plus a diagnostic naming the missing native
id, rather than raising. -/
theorem c8_gift_subscription_slots :
    ∀ (ev : Rumble.RumbleEvent) (users : List Rumble.RumbleUser)
      (u : Rumble.RumbleUser),
      ev.notification = some "gift_purchase_notification" →
      ((users.find? (fun x => x.id = ev.userId) = some u →
        Rumble.prepareSubscriptions [ev] users =
          ([some ⟨ev.id, true, u.username, ev.giftCount.getD 1, 5⟩], [])) ∧
       (users.find? (fun x => x.id = ev.userId) = none →
        Rumble.prepareSubscriptions [ev] users =
          ([none], ["User not found: " ++ ev.userId]))) := by
  intro ev users u hnotif
  unfold Rumble.prepareSubscriptions
  constructor
  · intro hfind
    simp [hnotif, hfind]
  · intro hfind
    simp [hnotif, hfind]

/-- C8 (witness): the concrete scenario of src/unnamed/part_002 lines
142-151 — the gift event with buyer id `88707682` against an empty
directory yields one `undefined` slot and the diagnostic naming that
id. -/
theorem c8_gift_subscription_witness :
    Rumble.prepareSubscriptions
      [{ id := "2403846329322621779",
         notification := some "gift_purchase_notification",
         userId := "88707682", giftCount := some 5 }] [] =
      ([none], ["User not found: 88707682"]) :=
  (c8_gift_subscription_slots
    { id := "2403846329322621779",
      notification := some "gift_purchase_notification",
      userId := "88707682", giftCount := some 5 } []
    { id := "", username := "" } rfl).2 rfl

/-- C10: the JSON action-tree adapter maps both membership-gift shapes to
derived informational messages with synthesized monetary fields: a
gifting event always receives currency `USD` and amount `5.00`, and a
gift-received event always receives currency `USD` and amount equal to
`numGiftedMembers * 5.00`, even though the native events carry no
monetary data. -/
theorem c10_gift_events_synthesize_usd :
    ∀ (channel : String) (g : YouTube.YTGiftEvent) (m : Chuck.ChatMessage),
      (YouTube.prepareChatMessageItem channel
          (some (.liveChatMembershipGiftingEventRenderer g)) = .ok (some m) →
        m.currency = some "USD" ∧ m.amount = some (some 5)) ∧
      (∀ n : ℚ, g.numGiftedMembers = some n →
        YouTube.prepareChatMessageItem channel
          (some (.liveChatGiftMembershipReceivedEventRenderer g)) = .ok (some m) →
        m.currency = some "USD" ∧ m.amount = some (some (n * 5))) := by
  intro channel g m
  constructor
  · intro h
    simp only [YouTube.prepareChatMessageItem] at h
    unfold YouTube.prepareGifting at h
    split at h
    · injection h with h
      injection h with h
      subst h
      exact ⟨rfl, rfl⟩
    · exact absurd h (by simp)
  · intro n hn h
    simp only [YouTube.prepareChatMessageItem] at h
    unfold YouTube.prepareGiftReceived at h
    split at h
    · injection h with h
      injection h with h
      subst h
      refine ⟨rfl, ?_⟩
      simp [hn]
    · exact absurd h (by simp)

/-! ### Round-trip lemmas (C5) -/

/-- The head of an append is the head of a nonempty left part. -/
theorem head?_append_left (l z : List Char) (h : l ≠ []) :
    (l ++ z).head? = l.head? := by
  cases l with
  | nil => exact absurd rfl h
  | cons c cs => rfl

/-- The head of a space-join (with anything appended) is the head of the
nonempty command. -/
theorem joinSp_head? (cmd : List Char) (params : List (List Char)) (z : List Char)
    (h : cmd ≠ []) : (Chuck.joinSp (cmd :: params) ++ z).head? = cmd.head? := by
  cases params with
  | nil => exact head?_append_left cmd z h
  | cons q rest =>
    show ((cmd ++ ' ' :: Chuck.joinSp (q :: rest)) ++ z).head? = cmd.head?
    rw [List.append_assoc]
    exact head?_append_left cmd _ h

/-- Searching for the space-colon marker skips over a space-free block. -/
theorem findSub_append_spacefree (p rest : List Char) (hp : ' ' ∉ p) :
    Chuck.findSub [' ', ':'] (p ++ rest) =
      (Chuck.findSub [' ', ':'] rest).map (· + p.length) := by
  induction p with
  | nil =>
    cases h : Chuck.findSub [' ', ':'] rest <;> simp [h]
  | cons c p' ih =>
    have hc : c ≠ ' ' := fun hcc => hp (hcc ▸ List.mem_cons_self c p')
    have hpre : ([' ', ':'].isPrefixOf (c :: (p' ++ rest))) = false := by
      simp only [List.isPrefixOf]
      simp [beq_eq_false_iff_ne, Ne.symm hc]
    have hp' : ' ' ∉ p' := fun hm => hp (List.mem_cons_of_mem c hm)
    show (if ([' ', ':'].isPrefixOf (c :: (p' ++ rest))) = true then some 0
          else (Chuck.findSub [' ', ':'] (p' ++ rest)).map (· + 1)) = _
    rw [hpre]
    simp only [Bool.false_eq_true, if_false, ih hp']
    cases h : Chuck.findSub [' ', ':'] rest <;> (simp [h]; try omega)

/-- Searching for the space-colon marker steps over a space that is not
followed by a colon. -/
theorem findSub_space_cons (rest : List Char) (h : rest.head? ≠ some ':') :
    Chuck.findSub [' ', ':'] (' ' :: rest) =
      (Chuck.findSub [' ', ':'] rest).map (· + 1) := by
  have hpre : ([' ', ':'].isPrefixOf (' ' :: rest)) = false := by
    cases rest with
    | nil => rfl
    | cons r rs =>
      have hr : r ≠ ':' := fun hrr => h (by rw [hrr]; rfl)
      simp only [List.isPrefixOf]
      simp [beq_eq_false_iff_ne, Ne.symm hr]
  show (if ([' ', ':'].isPrefixOf (' ' :: rest)) = true then some 0
        else (Chuck.findSub [' ', ':'] rest).map (· + 1)) = _
  rw [hpre]
  simp

/-- The space-colon marker does not occur in a well-formed space-join. -/
theorem findSub_joinSp_none (parts : List (List Char))
    (h : ∀ p ∈ parts, p ≠ [] ∧ ' ' ∉ p ∧ p.head? ≠ some ':') :
    Chuck.findSub [' ', ':'] (Chuck.joinSp parts) = none := by
  induction parts with
  | nil => rfl
  | cons p rest ih =>
    cases rest with
    | nil =>
      show Chuck.findSub [' ', ':'] p = none
      have := findSub_append_spacefree p [] (h p (List.mem_cons_self p []) ).2.1
      rw [List.append_nil] at this
      rw [this]
      rfl
    | cons q rest' =>
      show Chuck.findSub [' ', ':'] (p ++ ' ' :: Chuck.joinSp (q :: rest')) = none
      rw [findSub_append_spacefree p _ (h p (List.mem_cons_self p _)).2.1]
      have hq := h q (List.mem_cons_of_mem p (List.mem_cons_self q rest'))
      have hhead : (Chuck.joinSp (q :: rest')).head? = q.head? := by
        have := joinSp_head? q rest' [] hq.1
        rwa [List.append_nil] at this
      rw [findSub_space_cons _ (by rw [hhead]; exact hq.2.2)]
      rw [ih (fun x hx => h x (List.mem_cons_of_mem p hx))]
      rfl

/-- The first space-colon marker in a well-formed space-join followed by
the trailing marker is exactly at the length of the join. -/
theorem findSub_joinSp_trailing (parts : List (List Char)) (t : List Char)
    (h : ∀ p ∈ parts, p ≠ [] ∧ ' ' ∉ p ∧ p.head? ≠ some ':') :
    Chuck.findSub [' ', ':'] (Chuck.joinSp parts ++ ' ' :: ':' :: t) =
      some (Chuck.joinSp parts).length := by
  have h0 : Chuck.findSub [' ', ':'] (' ' :: ':' :: t) = some 0 := by
    show (if ([' ', ':'].isPrefixOf (' ' :: ':' :: t)) = true then some 0
          else (Chuck.findSub [' ', ':'] (':' :: t)).map (· + 1)) = some 0
    simp [List.isPrefixOf]
  induction parts with
  | nil => exact h0
  | cons p rest ih =>
    cases rest with
    | nil =>
      show Chuck.findSub [' ', ':'] (p ++ ' ' :: ':' :: t) = some p.length
      rw [findSub_append_spacefree p _ (h p (List.mem_cons_self p _)).2.1]
      rw [h0]
      simp
    | cons q rest' =>
      show Chuck.findSub [' ', ':']
          ((p ++ ' ' :: Chuck.joinSp (q :: rest')) ++ ' ' :: ':' :: t) =
        some (p ++ ' ' :: Chuck.joinSp (q :: rest')).length
      rw [List.append_assoc]
      rw [findSub_append_spacefree p _ (h p (List.mem_cons_self p _)).2.1]
      have hq := h q (List.mem_cons_of_mem p (List.mem_cons_self q rest'))
      show (Chuck.findSub [' ', ':']
          (' ' :: (Chuck.joinSp (q :: rest') ++ ' ' :: ':' :: t))).map (· + p.length) = _
      rw [findSub_space_cons _ (by
        rw [joinSp_head? q rest' _ hq.1]
        exact hq.2.2)]
      rw [ih (fun x hx => h x (List.mem_cons_of_mem p hx))]
      simp only [Option.map_some']
      congr 1
      simp only [List.length_append, List.length_cons]
      omega

/-- Splitting on spaces peels one space-free piece off a separator. -/
theorem splitCh_sep_cons (p rest : List Char) (hp : ' ' ∉ p) :
    Chuck.splitCh ' ' (p ++ ' ' :: rest) = p :: Chuck.splitCh ' ' rest := by
  induction p with
  | nil => rfl
  | cons c p' ih =>
    have hc : c ≠ ' ' := fun hcc => hp (hcc ▸ List.mem_cons_self c p')
    have hp' : ' ' ∉ p' := fun hm => hp (List.mem_cons_of_mem c hm)
    show (if c = ' ' then [] :: Chuck.splitCh ' ' (p' ++ ' ' :: rest)
          else match Chuck.splitCh ' ' (p' ++ ' ' :: rest) with
            | [] => [[c]]
            | q :: qs => (c :: q) :: qs) = _
    rw [if_neg hc, ih hp']

/-- A space-free string splits to itself alone. -/
theorem splitCh_no_sep (p : List Char) (hp : ' ' ∉ p) :
    Chuck.splitCh ' ' p = [p] := by
  induction p with
  | nil => rfl
  | cons c p' ih =>
    have hc : c ≠ ' ' := fun hcc => hp (hcc ▸ List.mem_cons_self c p')
    have hp' : ' ' ∉ p' := fun hm => hp (List.mem_cons_of_mem c hm)
    show (if c = ' ' then [] :: Chuck.splitCh ' ' p'
          else match Chuck.splitCh ' ' p' with
            | [] => [[c]]
            | q :: qs => (c :: q) :: qs) = _
    rw [if_neg hc, ih hp']

/-- Splitting a space-join of space-free pieces recovers the pieces. -/
theorem splitCh_joinSp (parts : List (List Char))
    (h : ∀ p ∈ parts, ' ' ∉ p) (hne : parts ≠ []) :
    Chuck.splitCh ' ' (Chuck.joinSp parts) = parts := by
  induction parts with
  | nil => exact absurd rfl hne
  | cons p rest ih =>
    cases rest with
    | nil => exact splitCh_no_sep p (h p (List.mem_cons_self p _))
    | cons q rest' =>
      show Chuck.splitCh ' ' (p ++ ' ' :: Chuck.joinSp (q :: rest')) = _
      rw [splitCh_sep_cons p _ (h p (List.mem_cons_self p _))]
      rw [ih (fun x hx => h x (List.mem_cons_of_mem p hx)) (by simp)]

/-- Evaluation of the tokenizer on a line with neither a tag block nor a
prefix block: only the trailing split and the space split act. -/
theorem parse_no_tags_no_pfx (L : List Char) (ha : L.head? ≠ some '@')
    (hb : L.head? ≠ some ':') :
    Twitch.parseIrcMessageToJson L =
      (match Chuck.findSub [' ', ':'] L with
       | some i =>
         match (Chuck.splitCh ' ' (L.take i)).filter (· ≠ []) with
         | [] => { raw := L, trailing := some (L.drop (i + 2)) }
         | c :: rest =>
           { raw := L, trailing := some (L.drop (i + 2)),
             command := some c, params := rest }
       | none =>
         match (Chuck.splitCh ' ' L).filter (· ≠ []) with
         | [] => { raw := L }
         | c :: rest => { raw := L, command := some c, params := rest }) := by
  unfold Twitch.parseIrcMessageToJson
  dsimp only
  rw [if_neg ha]
  dsimp only
  rw [if_neg hb]
  dsimp only
  cases Chuck.findSub [' ', ':'] L with
  | none => dsimp only
  | some i => dsimp only

/-- C5: tokenizing the re-serialization of a well-formed frame — the
command, the space-joined params, then the space-colon marker and the
trailing text when present — reproduces the command, the ordered params,
and the trailing. -/
theorem c5_roundtrip (cmd : List Char) (params : List (List Char))
    (trailing : Option (List Char)) (h : Chuck.WellFormedFrame cmd params) :
    (Twitch.parseIrcMessageToJson (Chuck.serializeFrame cmd params trailing)).command =
      some cmd ∧
    (Twitch.parseIrcMessageToJson (Chuck.serializeFrame cmd params trailing)).params =
      params ∧
    (Twitch.parseIrcMessageToJson (Chuck.serializeFrame cmd params trailing)).trailing =
      trailing := by
  obtain ⟨hc0, hc1, hc2, hc3, hps⟩ := h
  have hkey : ∀ p ∈ cmd :: params, p ≠ [] ∧ ' ' ∉ p ∧ p.head? ≠ some ':' := by
    intro p hp
    rcases List.mem_cons.mp hp with rfl | hp2
    · exact ⟨hc0, hc1, hc3⟩
    · exact hps p hp2
  have hsplit : Chuck.splitCh ' ' (Chuck.joinSp (cmd :: params)) = cmd :: params :=
    splitCh_joinSp _ (fun p hp => (hkey p hp).2.1) (by simp)
  have hfilter : (cmd :: params).filter (· ≠ []) = cmd :: params :=
    List.filter_eq_self.mpr (fun p hp => by simpa using (hkey p hp).1)
  cases trailing with
  | none =>
    have hL : Chuck.serializeFrame cmd params none = Chuck.joinSp (cmd :: params) :=
      List.append_nil _
    rw [hL]
    have hhead := joinSp_head? cmd params [] hc0
    rw [List.append_nil] at hhead
    rw [parse_no_tags_no_pfx _ (by rw [hhead]; exact hc2) (by rw [hhead]; exact hc3)]
    rw [findSub_joinSp_none _ hkey]
    dsimp only
    rw [hsplit, hfilter]
    exact ⟨rfl, rfl, rfl⟩
  | some t =>
    have hL : Chuck.serializeFrame cmd params (some t) =
        Chuck.joinSp (cmd :: params) ++ ' ' :: ':' :: t := rfl
    rw [hL]
    have hhead := joinSp_head? cmd params (' ' :: ':' :: t) hc0
    rw [parse_no_tags_no_pfx _ (by rw [hhead]; exact hc2) (by rw [hhead]; exact hc3)]
    rw [findSub_joinSp_trailing _ t hkey]
    dsimp only
    have hdrop : (Chuck.joinSp (cmd :: params) ++ ' ' :: ':' :: t).drop
        ((Chuck.joinSp (cmd :: params)).length + 2) = t := by
      have hsplit2 : Chuck.joinSp (cmd :: params) ++ ' ' :: ':' :: t =
          (Chuck.joinSp (cmd :: params) ++ [' ', ':']) ++ t := by simp
      have hlen : (Chuck.joinSp (cmd :: params) ++ [' ', ':']).length =
          (Chuck.joinSp (cmd :: params)).length + 2 := by simp
      rw [hsplit2, ← hlen]
      exact List.drop_left _ _
    rw [List.take_left, hdrop, hsplit, hfilter]
    exact ⟨rfl, rfl, rfl⟩

/-- C5 (witness): a concrete well-formed frame — command `PRIVMSG`, one
param `#chan`, trailing `hello :) ok` — round-trips. -/
theorem c5_roundtrip_witness :
    (Twitch.parseIrcMessageToJson
        (Chuck.serializeFrame ("PRIVMSG".data) [("#chan".data)]
          (some ("hello :) ok".data)))).command = some ("PRIVMSG".data) ∧
    (Twitch.parseIrcMessageToJson
        (Chuck.serializeFrame ("PRIVMSG".data) [("#chan".data)]
          (some ("hello :) ok".data)))).params = [("#chan".data)] ∧
    (Twitch.parseIrcMessageToJson
        (Chuck.serializeFrame ("PRIVMSG".data) [("#chan".data)]
          (some ("hello :) ok".data)))).trailing = some ("hello :) ok".data) :=
  c5_roundtrip ("PRIVMSG".data) [("#chan".data)] (some ("hello :) ok".data))
    (by unfold Chuck.WellFormedFrame; decide)

/-- Per-item form of the monetary invariant: any message an action maps
to has a currency whenever it has an amount. -/
theorem prepareItem_amount_imp_currency (channel : String) (a : YouTube.YTAction)
    (m : Chuck.ChatMessage)
    (h : YouTube.prepareChatMessageItem channel a = .ok (some m)) :
    m.amount ≠ none → m.currency ≠ none := by
  cases a with
  | none => exact absurd h (by simp [YouTube.prepareChatMessageItem])
  | some item =>
    cases item with
    | liveChatTextMessageRenderer r =>
      simp only [YouTube.prepareChatMessageItem] at h
      unfold YouTube.prepareTextOrPaid at h
      split at h
      · exact absurd h (by simp)
      · simp only [Bool.false_eq_true, if_false] at h
        injection h with h
        injection h with h
        subst h
        intro ham
        exact absurd rfl ham
    | liveChatPaidMessageRenderer r =>
      simp only [YouTube.prepareChatMessageItem] at h
      unfold YouTube.prepareTextOrPaid at h
      split at h
      · exact absurd h (by simp)
      · simp only [if_true] at h
        split at h
        · exact absurd h (by simp)
        · rename_i t ht
          split at h
          · injection h with h
            injection h with h
            subst h
            intro ham
            exact absurd rfl ham
          · rename_i hguard
            injection h with h
            injection h with h
            subst h
            intro _
            intro hc
            exact hguard (Or.inl (Option.isNone_iff_eq_none.mpr hc))
    | liveChatMembershipGiftingEventRenderer g =>
      intro _
      have := (c10_gift_events_synthesize_usd channel g m).1 h
      simp [this.1]
    | liveChatGiftMembershipReceivedEventRenderer g =>
      simp only [YouTube.prepareChatMessageItem] at h
      unfold YouTube.prepareGiftReceived at h
      split at h
      · injection h with h
        injection h with h
        subst h
        intro _
        simp
      · exact absurd h (by simp)
    | liveChatPlaceholderItemRenderer p =>
      simp only [YouTube.prepareChatMessageItem] at h
      injection h with h
      injection h with h
      subst h
      intro ham
      exact absurd rfl ham
    | unknownRenderer =>
      exact absurd h (by simp [YouTube.prepareChatMessageItem])

/-- Membership in a successfully prepared batch comes from some action
whose item mapped to that message. -/
theorem mem_prepareChatMessages (channel : String) (actions : List YouTube.YTAction)
    (msgs : List Chuck.ChatMessage) (m : Chuck.ChatMessage)
    (h : YouTube.prepareChatMessages channel actions = .ok msgs) (hm : m ∈ msgs) :
    ∃ a : YouTube.YTAction, YouTube.prepareChatMessageItem channel a = .ok (some m) := by
  induction actions generalizing msgs with
  | nil =>
    rw [show YouTube.prepareChatMessages channel [] = .ok [] from rfl] at h
    injection h with h
    subst h
    cases hm
  | cons a rest ih =>
    unfold YouTube.prepareChatMessages at h
    rw [List.mapM_cons] at h
    cases hfa : YouTube.prepareChatMessageItem channel a with
    | error e =>
      rw [hfa] at h
      exact absurd h (by simp [Except.map, Bind.bind, Except.bind])
    | ok x =>
      rw [hfa] at h
      cases hrest : (rest.mapM (YouTube.prepareChatMessageItem channel)) with
      | error e =>
        rw [hrest] at h
        exact absurd h (by simp [Except.map, Bind.bind, Except.bind, Pure.pure])
      | ok xs =>
        rw [hrest] at h
        simp only [Except.map, Bind.bind, Except.bind, Pure.pure, Except.pure] at h
        injection h with h
        have hRest : YouTube.prepareChatMessages channel rest = .ok (xs.filterMap id) := by
          unfold YouTube.prepareChatMessages
          rw [hrest]
          rfl
        cases x with
        | none =>
          subst h
          exact ih (xs.filterMap id) hRest (by simpa using hm)
        | some v =>
          subst h
          simp only [List.filterMap_cons, id] at hm
          rcases List.mem_cons.mp hm with hv | hmem
          · exact ⟨a, by rw [hfa, hv]⟩
          · exact ih (xs.filterMap id) hRest hmem

/-- C9: the monetary invariant of design §3 for the JSON action-tree
adapter: every message in a successfully prepared batch has its currency
field set whenever its amount field is set; in particular a paid message
whose purchase text the extractor cannot resolve gets neither field. -/
theorem c9_amount_implies_currency (channel : String)
    (actions : List YouTube.YTAction) (msgs : List Chuck.ChatMessage)
    (m : Chuck.ChatMessage)
    (h : YouTube.prepareChatMessages channel actions = .ok msgs)
    (hm : m ∈ msgs) : m.amount ≠ none → m.currency ≠ none := by
  obtain ⟨a, ha⟩ := mem_prepareChatMessages channel actions msgs m h hm
  exact prepareItem_amount_imp_currency channel a m ha

/-- C9 (witness): the batch of one membership-gifting action yields one
message with an amount set, and the theorem gives it a currency. -/
theorem c9_amount_implies_currency_witness : sampleGiftingMsg.currency ≠ none :=
  c9_amount_implies_currency "chan" [sampleGiftingAction] sampleGiftingMsgs
    sampleGiftingMsg rfl (by decide) (by decide)

/-- C10 (witness): a concrete gift-received event with three gifted
memberships maps to currency `USD` and amount `15.00`. -/
theorem c10_gift_events_witness :
    sampleReceivedMsg.currency = some "USD" ∧
    sampleReceivedMsg.amount = some (some (3 * 5)) :=
  (c10_gift_events_synthesize_usd "chan" sampleReceivedEvent sampleReceivedMsg).2
    3 rfl rfl
